import Mathlib

/-!
Verification of the conversation-simulation engine.

A shallow embedding, in Lean 4, of the core of the gym lead-qualification
conversation simulator (`simulator.py` / `models.py`): the data model, the
intent extractor, the termination assessor, the turn-taking orchestrator and
the batch runner.  External LLM calls are modelled as oracles (`Nat →
LLMResult`): the orchestrator consumes oracle responses in call order, which
captures all the nondeterminism of the network boundary.  Python `float`
values that the claims reason about (JSON numbers, confidence bounds) are
modelled as `Rat`; wall-clock timestamps are omitted from the records, and
`print` diagnostics are ignored.

Conventions:
- Brace characters inside modelled text are written with `\x7b` / `\x7d`
  escapes, and apostrophes with `\x27`.
- Functions keep the Python names where Lean allows it.
-/

set_option maxRecDepth 4000

namespace Sim

/-! ## Data model (`models.py`) -/

/-- `models.BigFiveTraits`: five 1–10 personality scores (the 1–10 pydantic
bound is enforced by the generator's `randint(1,10)` draws; the claims never
depend on it, so the fields are plain `Nat`s here). -/
structure BigFiveTraits where
  openness : Nat
  conscientiousness : Nat
  extraversion : Nat
  agreeableness : Nat
  neuroticism : Nat
deriving DecidableEq, Repr

/-- `models.Intent`: the closed set of fitness intents. -/
inductive Intent where
  | weight_loss
  | stress_relief_mental_health
  | learn_boxing_technique
  | general_fitness
  | social_community
  | just_wants_free_class
deriving DecidableEq, Repr

/-- The Python `Intent(value)` enum constructor: succeeds exactly on the six
string tags, raises `ValueError` (here: `none`) otherwise. -/
def Intent.fromValue? : String → Option Intent
  | "weight_loss" => some .weight_loss
  | "stress_relief_mental_health" => some .stress_relief_mental_health
  | "learn_boxing_technique" => some .learn_boxing_technique
  | "general_fitness" => some .general_fitness
  | "social_community" => some .social_community
  | "just_wants_free_class" => some .just_wants_free_class
  | _ => none

/-- `models.ObjectionType`. -/
inductive ObjectionType where
  | price
  | time_commitment
  | injury_concerns
  | intimidation_factor
  | location_parking
  | just_looking
deriving DecidableEq, Repr

/-- `models.ReadinessLevel`. -/
inductive ReadinessLevel where
  | hot
  | warm
  | cold
deriving DecidableEq, Repr

/-- `models.ProspectProfile` (immutable, one per conversation). -/
structure ProspectProfile where
  big_five : BigFiveTraits
  true_intent : Intent
  objection_type : Option ObjectionType
  readiness_level : ReadinessLevel
  age_range : String
  fitness_background : String
deriving DecidableEq, Repr

/-- Message roles, `Literal["prospect", "sales"]` in `models.py`. -/
inductive Role where
  | prospect
  | sales
deriving DecidableEq, Repr

/-- `models.ConversationMessage` (the `timestamp` field is omitted;
`tokens_used` is `Optional[int]` in the source but every constructed message
supplies it, so it is a plain `Nat` here). -/
structure ConversationMessage where
  role : Role
  content : String
  tokens_used : Nat
deriving DecidableEq, Repr

/-- `models.IntentDetection` (confidence as `Rat` in place of `float`). -/
structure IntentDetection where
  detected_intent : Intent
  confidence_level : Rat
  reasoning : String
  best_time_to_visit : Option String := none
deriving DecidableEq, Repr

/-- The pydantic validation performed when `IntentDetection(...)` is
constructed: `confidence_level` must satisfy `ge=0.0, le=1.0`; a violation
raises `ValidationError` (here: `none`). -/
def IntentDetection.make? (i : Intent) (c : Rat) (r : String)
    (b : Option String) : Option IntentDetection :=
  if 0 ≤ c ∧ c ≤ 1 then some ⟨i, c, r, b⟩ else none

/-- `models.ConversationOutcome`. -/
inductive ConversationOutcome where
  | agreed_to_free_class
  | not_interested
  | reached_message_limit
deriving DecidableEq, Repr

/-- `models.ConversationLog` (the `timestamp` field is omitted). -/
structure ConversationLog where
  conversation_id : String
  prospect_profile : ProspectProfile
  messages : List ConversationMessage
  intent_detection : Option IntentDetection
  outcome : ConversationOutcome
  total_tokens_used : Nat
  conversation_length : Nat
  intent_match : Bool
deriving DecidableEq, Repr

/-- `models.SimulationConfig` (temperatures as `Rat`; `api_key` omitted). -/
structure SimulationConfig where
  prospect_model : String := "gpt-4o-mini"
  sales_model : String := "gpt-4o-mini"
  prospect_temperature : Rat := 85 / 100
  sales_temperature : Rat := 3 / 10
  prospect_max_tokens : Nat := 100
  sales_max_tokens : Nat := 120
  max_message_exchanges : Nat := 3
  num_simulations : Nat := 100
  api_provider : String := "openai"
deriving DecidableEq, Repr

/-! ## String utilities mirroring the Python primitives used by the code -/

/-- Index of the first occurrence of the pattern `n` in `h`
(Python `h.find(n)`, with `none` for `-1`). -/
def substrPos (n : List Char) : List Char → Option Nat
  | [] => if n.isPrefixOf ([] : List Char) then some 0 else none
  | c :: t =>
      if n.isPrefixOf (c :: t) then some 0
      else (substrPos n t).map (· + 1)

/-- Python's `n in h` substring test. -/
def isSubstr (n h : String) : Bool :=
  (substrPos n.toList h.toList).isSome

/-- Index of the first character satisfying `p`
(Python `s.find(c)`, with `none` for `-1`). -/
def firstIdx (p : Char → Bool) : List Char → Option Nat
  | [] => none
  | c :: t => if p c then some 0 else (firstIdx p t).map (· + 1)

/-- Index of the last character satisfying `p`
(Python `s.rfind(c)`, with `none` for `-1`). -/
def lastIdx (p : Char → Bool) : List Char → Option Nat
  | [] => none
  | c :: t =>
      match lastIdx p t with
      | some i => some (i + 1)
      | none => if p c then some 0 else none

/-- Python slicing `s[a:b]` for `0 ≤ a ≤ b ≤ len s`. -/
def pySlice (s : List Char) (a b : Nat) : List Char :=
  (s.drop a).take (b - a)

/-- The whitespace `str.strip()` removes (ASCII subset). -/
def isPyWs (c : Char) : Bool :=
  [' ', '\t', '\n', '\r', Char.ofNat 11, Char.ofNat 12].contains c

/-- Python `s.strip()`. -/
def pyStrip (s : String) : String :=
  ⟨((s.toList.dropWhile isPyWs).reverse.dropWhile isPyWs).reverse⟩

/-- Worker for `pySplit`: scan left to right, breaking at each
non-overlapping occurrence of `sep`. -/
def pySplitAux (sep : List Char) : Nat → List Char → List Char →
    List (List Char)
  | 0, acc, _ => [acc.reverse]
  | _ + 1, acc, [] => [acc.reverse]
  | fuel + 1, acc, c :: rest =>
      if sep.isPrefixOf (c :: rest) then
        acc.reverse :: pySplitAux sep fuel [] ((c :: rest).drop sep.length)
      else pySplitAux sep fuel (c :: acc) rest

/-- Python `s.split(sep)` for a nonempty separator. -/
def pySplit (s sep : String) : List String :=
  (pySplitAux sep.toList (s.length + 1) [] s.toList).map (fun l => ⟨l⟩)

/-- The opening- and closing-brace characters, kept out of literals. -/
def lbrace : Char := Char.ofNat 123

/-- See `lbrace`. -/
def rbrace : Char := Char.ofNat 125

/-! ## A model of Python `json.loads`

Values deserialized from JSON text.  Numbers are `Rat` (covering the ints and
decimal floats the engine exchanges; exponent notation, `\uXXXX` escapes and
strict JSON's leading-zero restriction are not modelled — none of the texts
the engine handles use them). -/

/-- A parsed JSON value. -/
inductive Json where
  | str (s : String)
  | num (q : Rat)
  | bool (b : Bool)
  | null
  | arr (items : List Json)
  | obj (entries : List (String × Json))
deriving Repr

/-- Python dict truthiness of a decoded JSON value (`if x:`). -/
def jsonTruthy : Json → Bool
  | .null => false
  | .bool b => b
  | .num q => q != 0
  | .str s => s != ""
  | .arr elems => !elems.isEmpty
  | .obj fields => !fields.isEmpty

/-- Python `dict[k]` on a decoded object: later duplicate keys win, a missing
key raises `KeyError` (here: `none`). -/
def jLookup (fields : List (String × Json)) (k : String) : Option Json :=
  (fields.reverse.find? (fun f => f.1 == k)).map (·.2)

/-- Python `dict.get(k, default)`. -/
def jGet (fields : List (String × Json)) (k : String) (d : Json) : Json :=
  (jLookup fields k).getD d

/-- JSON whitespace. -/
def isJsonWs (c : Char) : Bool :=
  [' ', '\t', '\n', '\r'].contains c

/-- Drop leading JSON whitespace. -/
def skipWs (cs : List Char) : List Char :=
  match cs with
  | [] => []
  | c :: t => if isJsonWs c then skipWs t else cs

/-- Decode a JSON string escape character (`\uXXXX` escapes are outside the
modelled subset). -/
def escChar (e : Char) : Option Char :=
  if e == '"' || e == '\\' || e == '/' then some e
  else if e == 'n' then some '\n'
  else if e == 't' then some '\t'
  else if e == 'r' then some '\r'
  else if e == 'b' then some (Char.ofNat 8)
  else if e == 'f' then some (Char.ofNat 12)
  else none

/-- Parse the body of a JSON string after the opening quote, returning the
decoded characters and the remaining input. -/
def parseStringBody : Nat → List Char → Option (List Char × List Char)
  | 0, _ => none
  | _ + 1, [] => none
  | fuel + 1, c :: rest =>
      if c == '"' then some ([], rest)
      else if c == '\\' then
        match rest with
        | [] => none
        | e :: rest' => do
            let d ← escChar e
            let (s, r) ← parseStringBody fuel rest'
            pure (d :: s, r)
      else do
        let (s, r) ← parseStringBody fuel rest
        pure (c :: s, r)

/-- Split leading decimal digits from the input. -/
def takeDigits (cs : List Char) : List Char × List Char :=
  match cs with
  | [] => ([], [])
  | c :: t =>
      if c.isDigit = false then ([], cs)
      else
        let p := takeDigits t
        (c :: p.1, p.2)

/-- Numeric value of a digit string (48 is the code of the zero digit). -/
def digitsVal (ds : List Char) : Nat :=
  ds.foldl (fun n c => 10 * n + (c.toNat - 48)) 0

/-- Parse a JSON number (optional minus, digits, optional fraction).  The
value is assembled with `mkRat` on an integer mantissa and a power-of-ten
denominator. -/
def parseNumber (input : List Char) : Option (Json × List Char) :=
  let (neg, rest) :=
    match input with
    | '-' :: r => (true, r)
    | r => (false, r)
  let (ds, rest') := takeDigits rest
  if ds.isEmpty then none
  else
    match rest' with
    | '.' :: r2 =>
        let (fs, r3) := takeDigits r2
        if fs.isEmpty then none
        else
          let mant : Int :=
            ((digitsVal ds * 10 ^ fs.length + digitsVal fs : Nat) : Int)
          some (.num (mkRat (if neg then -mant else mant) (10 ^ fs.length)),
            r3)
    | _ =>
        let mant : Int := ((digitsVal ds : Nat) : Int)
        some (.num (mkRat (if neg then -mant else mant) 1), rest')

mutual

/-- Parse one JSON value at the head of the input. -/
def parseValue : Nat → List Char → Option (Json × List Char)
  | 0, _ => none
  | fuel + 1, input =>
      if "null".toList.isPrefixOf input then some (.null, input.drop 4)
      else if "true".toList.isPrefixOf input then
        some (.bool true, input.drop 4)
      else if "false".toList.isPrefixOf input then
        some (.bool false, input.drop 5)
      else
      match input with
      | '"' :: r =>
          (parseStringBody (fuel + 1) r).map (fun p => (.str p.1.asString, p.2))
      | c :: r =>
          if c == lbrace then
            let r' := skipWs r
            match r' with
            | c' :: r'' =>
                if c' == rbrace then some (.obj [], r'')
                else
                  (parseMembers fuel (c' :: r'')).map (fun p => (.obj p.1, p.2))
            | [] => none
          else if c == '[' then
            let r' := skipWs r
            match r' with
            | ']' :: r'' => some (.arr [], r'')
            | _ => (parseElements fuel r').map (fun p => (.arr p.1, p.2))
          else parseNumber input
      | [] => none

/-- Parse the members of a JSON object after the opening brace. -/
def parseMembers : Nat → List Char → Option (List (String × Json) × List Char)
  | 0, _ => none
  | fuel + 1, input =>
      match skipWs input with
      | '"' :: r => do
          let (key, r1) ← parseStringBody (fuel + 1) r
          match skipWs r1 with
          | ':' :: r2 => do
              let (v, r3) ← parseValue fuel (skipWs r2)
              match skipWs r3 with
              | ',' :: r4 => do
                  let (rest, r5) ← parseMembers fuel r4
                  pure ((key.asString, v) :: rest, r5)
              | c :: r4 =>
                  if c == rbrace then pure ([(key.asString, v)], r4) else none
              | [] => none
          | _ => none
      | _ => none

/-- Parse the elements of a JSON array after the opening bracket. -/
def parseElements : Nat → List Char → Option (List Json × List Char)
  | 0, _ => none
  | fuel + 1, input => do
      let (v, r1) ← parseValue fuel (skipWs input)
      match skipWs r1 with
      | ',' :: r2 => do
          let (rest, r3) ← parseElements fuel r2
          pure (v :: rest, r3)
      | ']' :: r2 => pure ([v], r2)
      | _ => none

end

/-- Python `json.loads` on a character list: parse the whole input as a
single JSON value (surrounding whitespace allowed); any violation raises
(here: `none`). -/
def json_loads_chars (cs : List Char) : Option Json :=
  match parseValue (cs.length + 2) (skipWs cs) with
  | some (j, rest) => if skipWs rest == [] then some j else none
  | none => none

/-- Python `json.loads`. -/
def json_loads (s : String) : Option Json :=
  json_loads_chars s.toList

/-- Python `float(x)` applied to a decoded JSON value: numbers pass through,
booleans coerce to 0/1, numeric strings are parsed (after stripping),
everything else raises (here: `none`). -/
def pyFloat? : Json → Option Rat
  | .num q => some q
  | .bool b => some (if b then 1 else 0)
  | .str s =>
      match parseNumber (pyStrip s).toList with
      | some (.num q, []) => some q
      | _ => none
  | _ => none

/-- `data.get("best_time_to_visit")` fed to the pydantic field
`Optional[str]`: a missing key or JSON `null` becomes `none`, a string is
kept, anything else fails validation (outer `none`). -/
def jGetOptStr (fields : List (String × Json)) (k : String) :
    Option (Option String) :=
  match jLookup fields k with
  | none => some none
  | some .null => some none
  | some (.str s) => some (some s)
  | some _ => none

/-! ## The Gateway boundary (`call_llm`, `simulator.py` lines 264–292) -/

/-- One raw Gateway (OpenAI) response: either message content plus
`usage.total_tokens`, or the text of the raised exception.  The model id,
temperature and token cap selected per role parameterize the external
request; the response itself is supplied by oracles of type
`Nat → LLMResult` indexed by call order. -/
inductive LLMResult where
  | ok (content : String) (tokens : Nat)
  | error (msg : String)
deriving DecidableEq, Repr

/-- `simulator.call_llm`: returns the response text and token count; a
raised exception is caught at the call site and converted into an inline
error marker with zero tokens. -/
def call_llm (result : LLMResult) : String × Nat :=
  match result with
  | .ok content tokens => (content, tokens)
  | .error e => ("[Error: " ++ e ++ "]", 0)

/-! ## Intent extraction (`extract_intent_detection`, lines 295–327) -/

/-- The `detected_intent` normalization (lines 311–316): strip, and if the
value is a comma-separated list of intents keep only the first, stripped
again. -/
def normalizeIntentStr (di : String) : String :=
  let detected_intent_str := pyStrip di
  if isSubstr "," detected_intent_str then
    pyStrip ((pySplit detected_intent_str ",").headD "")
  else detected_intent_str

/-- The decoding applied to the brace-delimited payload once it has been
sliced out of the sales message: `json.loads`, the `detected_intent`
strip/comma handling, the `Intent(...)` and `float(...)` conversions, and
the pydantic validation of the `IntentDetection` constructor.  Any raised
exception yields `none`. -/
def decodeIntentPayload (json_str : List Char) : Option IntentDetection :=
  match json_loads_chars json_str with
  | some (Json.obj fields) =>
      match jLookup fields "detected_intent" with
      | some (Json.str di) =>
          match Intent.fromValue? (normalizeIntentStr di) with
          | some intent =>
              match (jLookup fields "confidence_level").bind pyFloat? with
              | some c =>
                  match jLookup fields "reasoning" with
                  | some (Json.str r) =>
                      match jGetOptStr fields "best_time_to_visit" with
                      | some b => IntentDetection.make? intent c r b
                      | none => none
                  | _ => none
              | none => none
          | none => none
      | _ => none
  | _ => none

/-- `simulator.extract_intent_detection`: if the label is present anywhere
in the message, slice from the first brace of the whole message
(`find`) to one past its last brace (`rfind + 1`) and decode that
payload; every failure path returns `None`. -/
def extract_intent_detection (sales_final_message : String) :
    Option IntentDetection :=
  if isSubstr "INTENT_DETECTION:" sales_final_message then
    let chars := sales_final_message.toList
    match firstIdx (· == lbrace) chars with
    | some json_start =>
        match lastIdx (· == rbrace) chars with
        | some je =>
            if json_start < je + 1 then
              decodeIntentPayload (pySlice chars json_start (je + 1))
            else none
        | none => none
    | none => none
  else none

/-- Scan a balanced brace-delimited block: `depth` counts open braces,
`acc` accumulates the block in reverse. -/
def takeBalanced : Nat → Nat → List Char → List Char → Option (List Char)
  | 0, _, _, _ => none
  | _ + 1, _, _, [] => none
  | fuel + 1, depth, acc, c :: rest =>
      if c == lbrace then takeBalanced fuel (depth + 1) (c :: acc) rest
      else if c == rbrace then
        if depth == 1 then some (c :: acc).reverse
        else takeBalanced fuel (depth - 1) (c :: acc) rest
      else takeBalanced fuel depth (c :: acc) rest

/-- The first balanced brace-delimited block of the input, braces included. -/
def firstBalancedObject (cs : List Char) : Option (List Char) :=
  let cs' := cs.dropWhile (· != lbrace)
  if cs'.isEmpty then none else takeBalanced (cs'.length + 1) 0 [] cs'

/-- Modelled from the spec (§4.4), for comparison with the code's
`extract_intent_detection`: "locates a labeled block within free text,
isolates the first balanced brace-delimited JSON object following that
label, and decodes it into the four IntentDetection fields."  Decoding is
the same pipeline the code applies to its payload. -/
def extractSpec (msg : String) : Option IntentDetection :=
  match substrPos "INTENT_DETECTION:".toList msg.toList with
  | none => none
  | some p =>
      let after := msg.toList.drop (p + "INTENT_DETECTION:".length)
      match firstBalancedObject after with
      | none => none
      | some objChars => decodeIntentPayload objChars

/-! ## Termination assessment (`assess_conversation_status`, lines 330–440) -/

/-- The reply normalization the assessor performs before parsing (lines
414–421): strip the reply, then peel a markdown code fence
(` ```json ... ``` ` or ` ``` ... ``` `) if one is present. -/
def assessStrip (content : String) : String :=
  let response_text := pyStrip content
  if isSubstr "```json" response_text then
    pyStrip ((pySplit ((pySplit response_text "```json").getD 1 "")
      "```").headD "")
  else if isSubstr "```" response_text then
    pyStrip ((pySplit ((pySplit response_text "```").getD 1 "")
      "```").headD "")
  else response_text

/-- `simulator.assess_conversation_status`: classify the latest prospect
response via a secondary LLM call.  The conversation history and prospect
response parameterize the request prompt; `response` is the
oracle-supplied result of the call.  The reply is stripped, markdown code
fences are removed, the JSON verdict is parsed, and `(should_end, outcome)`
is returned; any raised exception (failed call, parse error, non-dict
reply) yields `(False, None)`. -/
def assess_conversation_status (response : LLMResult) :
    Bool × Option ConversationOutcome :=
  match response with
  | .error _ => (false, none)
  | .ok content _ =>
      match json_loads (assessStrip content) with
      | some (Json.obj fields) =>
          let should_end := jsonTruthy (jGet fields "should_end" (.bool false))
          let outcome : Option ConversationOutcome :=
            match jGet fields "outcome" (.str "continue") with
            | .str s =>
                if s == "agreed_to_free_class" then
                  some .agreed_to_free_class
                else if s == "not_interested" then some .not_interested
                else none
            | _ => none
          (should_end, outcome)
      | _ => (false, none)

/-! ## Turn-taking orchestrator (`run_single_conversation`, lines 443–584) -/

/-- A chat-API message (`{"role": ..., "content": ...}` dict). -/
structure ChatMsg where
  role : String
  content : String
deriving DecidableEq, Repr

/-- The prospect system prompt composed from the profile.  The spec (§1)
treats prompt text as an opaque configuration string supplied to the
Gateway, not logic, so its text is not reproduced here. -/
def create_prospect_prompt (_profile : ProspectProfile) : String :=
  "PROSPECT_SYSTEM_PROMPT"

/-- The sales system prompt; see `create_prospect_prompt`. -/
def create_sales_prompt : String :=
  "SALES_SYSTEM_PROMPT"

/-- The fixed canonical sales opening (lines 469–475, verbatim). -/
def sales_opening : String :=
  "Hi! Thanks for reaching out about our boxing fitness gym. I have a few questions to help us learn more about you:\n\n1. What\x27s your main fitness goal? (weight loss, stress relief, learn technique, general fitness, etc.)\n2. How often do you currently exercise?\n3. Any concerns about high-intensity training?\n\nLooking forward to getting you started!"

/-- The opening `ConversationMessage` (role sales, zero tokens). -/
def openingMessage : ConversationMessage :=
  ⟨Role.sales, sales_opening, 0⟩

/-- The fixed request appended to the sales history for the closing intent
read (lines 559–562). -/
def intentRequestText : String :=
  "Based on our conversation, please provide your INTENT_DETECTION assessment in the required JSON format."

/-- The orchestrator's mutable state: transcript, token total, both
role-inverted histories, and instrumentation counters for the number of
Gateway calls and Termination Assessor invocations made so far (the
counters double as the next index into the respective oracle). -/
structure ConvState where
  messages : List ConversationMessage
  total_tokens : Nat
  sales_history : List ChatMsg
  prospect_history : List ChatMsg
  gwCalls : Nat
  assessCalls : Nat
deriving DecidableEq, Repr

/-- One sales turn (lines 498–510): a Gateway call, message append, and
mirror appends to both histories. -/
def salesStep (gw : Nat → LLMResult) (st : ConvState) : ConvState :=
  let r := call_llm (gw st.gwCalls)
  { st with
    messages := st.messages ++ [⟨Role.sales, r.1, r.2⟩]
    total_tokens := st.total_tokens + r.2
    sales_history := st.sales_history ++ [⟨"assistant", r.1⟩]
    prospect_history := st.prospect_history ++ [⟨"user", r.1⟩]
    gwCalls := st.gwCalls + 1 }

/-- One prospect turn (lines 513–525), symmetric to `salesStep`. -/
def prospectStep (gw : Nat → LLMResult) (st : ConvState) : ConvState :=
  let r := call_llm (gw st.gwCalls)
  { st with
    messages := st.messages ++ [⟨Role.prospect, r.1, r.2⟩]
    total_tokens := st.total_tokens + r.2
    prospect_history := st.prospect_history ++ [⟨"assistant", r.1⟩]
    sales_history := st.sales_history ++ [⟨"user", r.1⟩]
    gwCalls := st.gwCalls + 1 }

/-- The two turns of one loop iteration: the sales turn (skipped at
exchange 0, which the fixed opening already covers) followed by the
prospect turn. -/
def turnPhase (gw : Nat → LLMResult) (exchange : Nat) (st : ConvState) :
    ConvState :=
  prospectStep gw (if exchange == 0 then st else salesStep gw st)

/-- Record one Termination Assessor invocation. -/
def bumpAssess (st : ConvState) : ConvState :=
  { st with assessCalls := st.assessCalls + 1 }

/-- The conversation loop (lines 492–551): `remaining` is the number of
iterations the `for exchange in range(max_message_exchanges)` loop may
still run, `exchange` the current 0-based index.  Each iteration runs the
sales turn (skipped at exchange 0, covered by the opening), the prospect
turn, and the post-turn assessment (`if should_end and assessed_outcome:
break`, where Python truthiness of the optional outcome is `isSome`); on
the last exchange (`exchange >= max_message_exchanges - 1`) a second
assessment is made and the hard limit applies if it does not signal.
Returns the final state and the outcome set at the `break`, if any. -/
def convLoop (config : SimulationConfig) (gw asse : Nat → LLMResult) :
    Nat → Nat → ConvState → ConvState × Option ConversationOutcome
  | 0, _, st => (st, none)
  | remaining + 1, exchange, st =>
      let st1 := turnPhase gw exchange st
      let r1 := assess_conversation_status (asse st1.assessCalls)
      if r1.1 && r1.2.isSome then (bumpAssess st1, r1.2)
      else if config.max_message_exchanges - 1 ≤ exchange then
        let r2 := assess_conversation_status (asse (bumpAssess st1).assessCalls)
        if r2.1 && r2.2.isSome then (bumpAssess (bumpAssess st1), r2.2)
        else
          (bumpAssess (bumpAssess st1),
            some ConversationOutcome.reached_message_limit)
      else convLoop config gw asse remaining (exchange + 1) (bumpAssess st1)

/-- The conversation state after the fixed opening has been emitted
(lines 455–486): the opening message (zero tokens) and the two
role-inverted histories seeded with the system prompts and the opening. -/
def initState (profile : ProspectProfile) : ConvState :=
  { messages := [openingMessage]
    total_tokens := 0
    sales_history :=
      [⟨"system", create_sales_prompt⟩, ⟨"assistant", sales_opening⟩]
    prospect_history :=
      [⟨"system", create_prospect_prompt profile⟩, ⟨"user", sales_opening⟩]
    gwCalls := 0
    assessCalls := 0 }

/-- `simulator.run_single_conversation`, instrumented: returns the
`ConversationLog` the source returns together with the final orchestrator
state (for the call-count invariants).  `profile` stands for the
`generate_prospect_profile()` draw; `gw` and `asse` are the Gateway oracles
for the turn/extraction calls and for the assessor's secondary calls. -/
def run_single_conversation_full (config : SimulationConfig)
    (conversation_id : String) (profile : ProspectProfile)
    (gw asse : Nat → LLMResult) : ConversationLog × ConvState :=
  let res := convLoop config gw asse config.max_message_exchanges 0
    (initState profile)
  let st1 := res.1
  let outcome := res.2.getD ConversationOutcome.reached_message_limit
  let _intent_request := st1.sales_history ++ [⟨"user", intentRequestText⟩]
  let ir := call_llm (gw st1.gwCalls)
  let st2 :=
    { st1 with
      gwCalls := st1.gwCalls + 1
      total_tokens := st1.total_tokens + ir.2 }
  let intent_detection := extract_intent_detection ir.1
  let intent_match :=
    match intent_detection with
    | some d => d.detected_intent == profile.true_intent
    | none => false
  let log : ConversationLog :=
    { conversation_id := conversation_id
      prospect_profile := profile
      messages := st1.messages
      intent_detection := intent_detection
      outcome := outcome
      total_tokens_used := st2.total_tokens
      conversation_length :=
        (st1.messages.filter (fun m => m.role == Role.sales)).length
      intent_match := intent_match }
  (log, st2)

/-- The log returned by `run_single_conversation`. -/
def run_single_conversation (config : SimulationConfig)
    (conversation_id : String) (profile : ProspectProfile)
    (gw asse : Nat → LLMResult) : ConversationLog :=
  (run_single_conversation_full config conversation_id profile gw asse).1

/-- Number of prospect turns recorded in a transcript. -/
def prospectCount (msgs : List ConversationMessage) : Nat :=
  (msgs.filter (fun m => m.role == Role.prospect)).length

/-! ## Batch runner (`run_simulation_batch`, lines 587–608) -/

/-- `simulator.run_simulation_batch`: run `num_simulations` conversations;
`runResult i` is the outcome of iteration `i` (the generated id, profile,
and all LLM traffic folded in): a finished log, or the text of an
exception escaping `run_single_conversation`.  A failed iteration is
caught, logged and skipped. -/
def run_simulation_batch (config : SimulationConfig)
    (runResult : Nat → Except String ConversationLog) :
    List ConversationLog :=
  (List.range config.num_simulations).foldl
    (fun logs i =>
      match runResult i with
      | .ok log => logs ++ [log]
      | .error _ => logs)
    []

/-- The completed-versus-requested tally the batch runner reports
(`Completed {len(logs)}/{config.num_simulations}`). -/
def batchReport (config : SimulationConfig) (logs : List ConversationLog) :
    Nat × Nat :=
  (logs.length, config.num_simulations)

/-- The other role. -/
def roleFlip : Role → Role
  | .sales => .prospect
  | .prospect => .sales

/-- `altFrom r msgs` holds when the roles of `msgs` strictly alternate
starting with `r`. -/
def altFrom : Role → List ConversationMessage → Bool
  | _, [] => true
  | r, m :: rest => m.role == r && altFrom (roleFlip r) rest

/-- The payload `extract_intent_detection` slices out of the sales
message when the label is present: from the first brace of the whole
message to one past its last brace. -/
def intentPayload? (s : String) : Option (List Char) :=
  if isSubstr "INTENT_DETECTION:" s then
    match firstIdx (· == lbrace) s.toList, lastIdx (· == rbrace) s.toList with
    | some json_start, some je =>
        if json_start < je + 1 then
          some (pySlice s.toList json_start (je + 1))
        else none
    | some _, none => none
    | none, _ => none
  else none

/-- `braceFree s` holds when `s` contains neither brace character. -/
def braceFree (s : String) : Bool :=
  s.toList.all (fun c => !(c == lbrace) && !(c == rbrace))

/-- A one-character string holding `lbrace`. -/
def lbraceStr : String := ⟨[lbrace]⟩

/-- A one-character string holding `rbrace`. -/
def rbraceStr : String := ⟨[rbrace]⟩

/-! ## Concrete fixtures used by the closed (counter)example theorems -/

/-- A fixed prospect profile. -/
def profileA : ProspectProfile :=
  ⟨⟨5, 5, 5, 5, 5⟩, Intent.weight_loss, none, ReadinessLevel.warm,
    "25-35", "beginner"⟩

/-- A configuration allowing a single message exchange. -/
def cfgMax1 : SimulationConfig := { max_message_exchanges := 1 }

/-- A Gateway oracle that always succeeds with a fixed reply. -/
def gwConst : Nat → LLMResult := fun _ => .ok "hello" 7

/-- A Gateway oracle that always raises. -/
def gwErr : Nat → LLMResult := fun _ => .error "boom"

/-- An assessor oracle whose verdicts disagree internally: the categorical
outcome says agreed but `should_end` is false. -/
def asseDisagree : Nat → LLMResult := fun _ =>
  .ok "\x7b\"should_end\": false, \"outcome\": \"agreed_to_free_class\", \"reasoning\": \"x\"\x7d" 10

/-- An assessor oracle that consistently signals a decline. -/
def asseAgreeEnd : Nat → LLMResult := fun _ =>
  .ok "\x7b\"should_end\": true, \"outcome\": \"not_interested\", \"reasoning\": \"x\"\x7d" 10

/-- An assessor oracle that consistently votes to continue. -/
def asseContinue : Nat → LLMResult := fun _ =>
  .ok "\x7b\"should_end\": false, \"outcome\": \"continue\", \"reasoning\": \"x\"\x7d" 10

/-- An assessor oracle whose secondary LLM call always raises. -/
def asseFail : Nat → LLMResult := fun _ => .error "boom"

/-- A sales message whose first brace precedes the label: the labeled
object is well-formed, but the code's first-brace-to-last-brace slice is
not valid JSON. -/
def textBraceBeforeLabel : String :=
  "note\x7bx\x7d INTENT_DETECTION: \x7b\"detected_intent\": \"weight_loss\", \"confidence_level\": 0.9, \"reasoning\": \"r\"\x7d"

/-- A sales message whose labeled payload is missing its closing brace. -/
def textMalformed : String :=
  "INTENT_DETECTION: \x7b\"detected_intent\": \"weight_loss\", \"confidence_level\": 0.9, \"reasoning\": \"r\""

/-- A sales message whose labeled payload carries an unknown intent token. -/
def textUnknownIntent : String :=
  "INTENT_DETECTION: \x7b\"detected_intent\": \"yoga\", \"confidence_level\": 0.9, \"reasoning\": \"r\"\x7d"

/-- A sales message whose labeled payload carries an out-of-range
confidence. -/
def textConfidenceOOB : String :=
  "INTENT_DETECTION: \x7b\"detected_intent\": \"weight_loss\", \"confidence_level\": 1.5, \"reasoning\": \"r\"\x7d"

/-- The payload the code slices out of `textConfidenceOOB`. -/
def payloadOOB : List Char :=
  "\x7b\"detected_intent\": \"weight_loss\", \"confidence_level\": 1.5, \"reasoning\": \"r\"\x7d".toList

/-- The decoded object of `payloadOOB`. -/
def fieldsOOB : List (String × Json) :=
  [("detected_intent", Json.str "weight_loss"),
   ("confidence_level", Json.num (mkRat 15 10)),
   ("reasoning", Json.str "r")]

/-! ## Helper lemmas -/

@[simp]
lemma prospectCount_append (xs ys : List ConversationMessage) :
    prospectCount (xs ++ ys) = prospectCount xs + prospectCount ys := by
  simp [prospectCount, List.filter_append]

@[simp]
lemma prospectCount_sales (c : String) (t : Nat) :
    prospectCount [⟨Role.sales, c, t⟩] = 0 := rfl

@[simp]
lemma prospectCount_prospect (c : String) (t : Nat) :
    prospectCount [⟨Role.prospect, c, t⟩] = 1 := rfl

@[simp]
lemma salesStep_messages (gw : Nat → LLMResult) (st : ConvState) :
    (salesStep gw st).messages =
      st.messages ++
        [⟨Role.sales, (call_llm (gw st.gwCalls)).1,
          (call_llm (gw st.gwCalls)).2⟩] := rfl

@[simp]
lemma prospectStep_messages (gw : Nat → LLMResult) (st : ConvState) :
    (prospectStep gw st).messages =
      st.messages ++
        [⟨Role.prospect, (call_llm (gw st.gwCalls)).1,
          (call_llm (gw st.gwCalls)).2⟩] := rfl

@[simp]
lemma salesStep_assessCalls (gw : Nat → LLMResult) (st : ConvState) :
    (salesStep gw st).assessCalls = st.assessCalls := rfl

@[simp]
lemma prospectStep_assessCalls (gw : Nat → LLMResult) (st : ConvState) :
    (prospectStep gw st).assessCalls = st.assessCalls := rfl

@[simp]
lemma bumpAssess_assessCalls (st : ConvState) :
    (bumpAssess st).assessCalls = st.assessCalls + 1 := rfl

@[simp]
lemma bumpAssess_messages (st : ConvState) :
    (bumpAssess st).messages = st.messages := rfl

lemma turnPhase_messages (gw : Nat → LLMResult) (exchange : Nat)
    (st : ConvState) :
    ∃ (c : String) (t : Nat) (mid : List ConversationMessage),
      (turnPhase gw exchange st).messages =
        st.messages ++ mid ++ [⟨Role.prospect, c, t⟩] ∧
      prospectCount mid = 0 := by
  unfold turnPhase
  split
  · exact ⟨(call_llm (gw st.gwCalls)).1, (call_llm (gw st.gwCalls)).2, [],
      by simp [prospectStep], rfl⟩
  · exact ⟨(call_llm (gw (salesStep gw st).gwCalls)).1,
      (call_llm (gw (salesStep gw st).gwCalls)).2,
      [⟨Role.sales, (call_llm (gw st.gwCalls)).1,
        (call_llm (gw st.gwCalls)).2⟩],
      by simp [prospectStep], rfl⟩

@[simp]
lemma turnPhase_pc (gw : Nat → LLMResult) (exchange : Nat) (st : ConvState) :
    prospectCount (turnPhase gw exchange st).messages =
      prospectCount st.messages + 1 := by
  obtain ⟨c, t, mid, hm, hmid⟩ := turnPhase_messages gw exchange st
  simp [hm, hmid]

@[simp]
lemma turnPhase_assessCalls (gw : Nat → LLMResult) (exchange : Nat)
    (st : ConvState) :
    (turnPhase gw exchange st).assessCalls = st.assessCalls := by
  unfold turnPhase
  split <;> rfl

/-- Across any run of the loop, the number of assessor invocations made
equals the number of prospect turns completed, or exceeds it by exactly one
(the one extra coming from the final-exchange double assessment). -/
lemma convLoop_assess_pc (config : SimulationConfig)
    (gw asse : Nat → LLMResult) :
    ∀ (rem exchange : Nat) (st st' : ConvState)
      (o : Option ConversationOutcome),
      convLoop config gw asse rem exchange st = (st', o) →
      st'.assessCalls + prospectCount st.messages =
          prospectCount st'.messages + st.assessCalls ∨
        st'.assessCalls + prospectCount st.messages =
          prospectCount st'.messages + st.assessCalls + 1
  | 0, exchange, st, st', o => by
      intro h
      simp only [convLoop, Prod.mk.injEq] at h
      obtain ⟨rfl, rfl⟩ := h
      left
      omega
  | rem + 1, exchange, st, st', o => by
      intro h
      simp only [convLoop] at h
      split at h
      · obtain ⟨rfl, rfl⟩ := Prod.mk.injEq .. |>.mp h
        simp
        omega
      · split at h
        · split at h
          · obtain ⟨rfl, rfl⟩ := Prod.mk.injEq .. |>.mp h
            simp
            omega
          · obtain ⟨rfl, rfl⟩ := Prod.mk.injEq .. |>.mp h
            simp
            omega
        · have ih := convLoop_assess_pc config gw asse rem (exchange + 1)
            (bumpAssess (turnPhase gw exchange st)) st' o h
          simp at ih
          rcases ih with ih | ih
          · left; omega
          · right; omega

/-- The loop completes at most `rem` further prospect turns. -/
lemma convLoop_pc_le (config : SimulationConfig) (gw asse : Nat → LLMResult) :
    ∀ (rem exchange : Nat) (st st' : ConvState)
      (o : Option ConversationOutcome),
      convLoop config gw asse rem exchange st = (st', o) →
      prospectCount st'.messages ≤ prospectCount st.messages + rem
  | 0, exchange, st, st', o => by
      intro h
      simp only [convLoop, Prod.mk.injEq] at h
      obtain ⟨rfl, rfl⟩ := h
      omega
  | rem + 1, exchange, st, st', o => by
      intro h
      simp only [convLoop] at h
      split at h
      · obtain ⟨rfl, rfl⟩ := Prod.mk.injEq .. |>.mp h
        simp
      · split at h
        · split at h
          · obtain ⟨rfl, rfl⟩ := Prod.mk.injEq .. |>.mp h
            simp
          · obtain ⟨rfl, rfl⟩ := Prod.mk.injEq .. |>.mp h
            simp
        · have ih := convLoop_pc_le config gw asse rem (exchange + 1)
            (bumpAssess (turnPhase gw exchange st)) st' o h
          simp at ih
          omega

/-- The loop only ever appends to the transcript. -/
lemma convLoop_messages_ext (config : SimulationConfig)
    (gw asse : Nat → LLMResult) :
    ∀ (rem exchange : Nat) (st st' : ConvState)
      (o : Option ConversationOutcome),
      convLoop config gw asse rem exchange st = (st', o) →
      ∃ tail, st'.messages = st.messages ++ tail
  | 0, exchange, st, st', o => by
      intro h
      simp only [convLoop, Prod.mk.injEq] at h
      obtain ⟨rfl, rfl⟩ := h
      exact ⟨[], by simp⟩
  | rem + 1, exchange, st, st', o => by
      intro h
      obtain ⟨c, t, mid, hm, -⟩ := turnPhase_messages gw exchange st
      simp only [convLoop] at h
      split at h
      · obtain ⟨rfl, rfl⟩ := Prod.mk.injEq .. |>.mp h
        exact ⟨mid ++ [⟨Role.prospect, c, t⟩], by simp [hm]⟩
      · split at h
        · split at h
          · obtain ⟨rfl, rfl⟩ := Prod.mk.injEq .. |>.mp h
            exact ⟨mid ++ [⟨Role.prospect, c, t⟩], by simp [hm]⟩
          · obtain ⟨rfl, rfl⟩ := Prod.mk.injEq .. |>.mp h
            exact ⟨mid ++ [⟨Role.prospect, c, t⟩], by simp [hm]⟩
        · obtain ⟨tail, htail⟩ := convLoop_messages_ext config gw asse rem
            (exchange + 1) (bumpAssess (turnPhase gw exchange st)) st' o h
          simp [hm] at htail
          exact ⟨mid ++ [⟨Role.prospect, c, t⟩] ++ tail, by simp [htail]⟩

/-- If no assessor response ever signals termination, a loop entered with
`exchange + rem = max_message_exchanges` and at least one iteration to go
exits with `reached_message_limit` and completes exactly `rem` further
prospect turns. -/
lemma convLoop_no_signal (config : SimulationConfig)
    (gw asse : Nat → LLMResult)
    (hns : ∀ k, ((assess_conversation_status (asse k)).1 &&
      (assess_conversation_status (asse k)).2.isSome) = false) :
    ∀ (rem exchange : Nat) (st st' : ConvState)
      (o : Option ConversationOutcome),
      convLoop config gw asse rem exchange st = (st', o) →
      exchange + rem = config.max_message_exchanges → 1 ≤ rem →
      o = some ConversationOutcome.reached_message_limit ∧
        prospectCount st'.messages = prospectCount st.messages + rem
  | 0, exchange, st, st', o => by
      intro _ _ hrem
      omega
  | rem + 1, exchange, st, st', o => by
      intro h hsync _
      simp only [convLoop] at h
      rw [hns] at h
      simp only [Bool.false_eq_true, if_false] at h
      split at h
      · rw [hns] at h
        simp only [Bool.false_eq_true, if_false, Prod.mk.injEq] at h
        obtain ⟨rfl, rfl⟩ := h
        refine ⟨rfl, ?_⟩
        have : rem = 0 := by omega
        subst this
        simp
      · rename_i hlt
        have hrem1 : 1 ≤ rem := by omega
        have ih := convLoop_no_signal config gw asse hns rem (exchange + 1)
          (bumpAssess (turnPhase gw exchange st)) st' o h (by omega) hrem1
        refine ⟨ih.1, ?_⟩
        have := ih.2
        simp at this
        omega

/-- A terminal outcome set by the loop is either the hard message limit or
was produced by some assessor invocation that signalled both `should_end`
and that categorical outcome. -/
lemma convLoop_outcome_src (config : SimulationConfig)
    (gw asse : Nat → LLMResult) :
    ∀ (rem exchange : Nat) (st st' : ConvState) (o : ConversationOutcome),
      convLoop config gw asse rem exchange st = (st', some o) →
      o = ConversationOutcome.reached_message_limit ∨
        ∃ k, (assess_conversation_status (asse k)).1 = true ∧
          (assess_conversation_status (asse k)).2 = some o
  | 0, exchange, st, st', o => by
      intro h
      simp [convLoop] at h
  | rem + 1, exchange, st, st', o => by
      intro h
      simp only [convLoop] at h
      split at h
      · rename_i hsig
        obtain ⟨rfl, h2⟩ := Prod.mk.injEq .. |>.mp h
        simp only [Bool.and_eq_true] at hsig
        right
        exact ⟨(turnPhase gw exchange st).assessCalls, hsig.1, h2⟩
      · split at h
        · split at h
          · rename_i hsig
            obtain ⟨rfl, h2⟩ := Prod.mk.injEq .. |>.mp h
            simp only [Bool.and_eq_true] at hsig
            right
            exact ⟨(bumpAssess (turnPhase gw exchange st)).assessCalls,
              hsig.1, h2⟩
          · obtain ⟨rfl, h2⟩ := Prod.mk.injEq .. |>.mp h
            left
            injection h2 with h3
            exact h3.symm
        · exact convLoop_outcome_src config gw asse rem (exchange + 1)
            (bumpAssess (turnPhase gw exchange st)) st' o h

/-- Every transcript message a loop run adds is the output of some Gateway
call: content and token count are `call_llm` of an oracle response. -/
lemma convLoop_msgs_from_gw (config : SimulationConfig)
    (gw asse : Nat → LLMResult) :
    ∀ (rem exchange : Nat) (st st' : ConvState)
      (o : Option ConversationOutcome),
      convLoop config gw asse rem exchange st = (st', o) →
      (∀ m ∈ st.messages, m = openingMessage ∨
        ∃ i, m.content = (call_llm (gw i)).1 ∧
          m.tokens_used = (call_llm (gw i)).2) →
      ∀ m ∈ st'.messages, m = openingMessage ∨
        ∃ i, m.content = (call_llm (gw i)).1 ∧
          m.tokens_used = (call_llm (gw i)).2
  | 0, exchange, st, st', o => by
      intro h hst
      simp only [convLoop, Prod.mk.injEq] at h
      obtain ⟨rfl, rfl⟩ := h
      exact hst
  | rem + 1, exchange, st, st', o => by
      intro h hst
      have hturn : ∀ m ∈ (turnPhase gw exchange st).messages,
          m = openingMessage ∨
          ∃ i, m.content = (call_llm (gw i)).1 ∧
            m.tokens_used = (call_llm (gw i)).2 := by
        unfold turnPhase
        split
        · intro m hm
          simp only [prospectStep_messages, List.mem_append,
            List.mem_singleton] at hm
          rcases hm with hm | hm
          · exact hst m hm
          · subst hm
            exact Or.inr ⟨st.gwCalls, rfl, rfl⟩
        · intro m hm
          simp only [prospectStep_messages, salesStep_messages,
            List.mem_append, List.mem_singleton] at hm
          rcases hm with (hm | hm) | hm
          · exact hst m hm
          · subst hm
            exact Or.inr ⟨st.gwCalls, rfl, rfl⟩
          · subst hm
            exact Or.inr ⟨(salesStep gw st).gwCalls, rfl, rfl⟩
      simp only [convLoop] at h
      split at h
      · obtain ⟨rfl, -⟩ := Prod.mk.injEq .. |>.mp h
        exact hturn
      · split at h
        · split at h
          · obtain ⟨rfl, -⟩ := Prod.mk.injEq .. |>.mp h
            exact hturn
          · obtain ⟨rfl, -⟩ := Prod.mk.injEq .. |>.mp h
            exact hturn
        · exact convLoop_msgs_from_gw config gw asse rem (exchange + 1)
            (bumpAssess (turnPhase gw exchange st)) st' o h hturn

@[simp]
lemma roleFlip_roleFlip (r : Role) : roleFlip (roleFlip r) = r := by
  cases r <;> rfl

/-- Appending a message of the parity-correct role preserves strict
alternation. -/
lemma altFrom_append (r : Role) :
    ∀ (msgs : List ConversationMessage) (m : ConversationMessage),
      altFrom r msgs = true →
      m.role = (if msgs.length % 2 == 0 then r else roleFlip r) →
      altFrom r (msgs ++ [m]) = true := by
  intro msgs
  induction msgs generalizing r with
  | nil =>
      intro m _ hrole
      simp at hrole
      simp [altFrom, hrole]
  | cons m0 t ih =>
      intro m halt hrole
      simp only [altFrom, Bool.and_eq_true, beq_iff_eq] at halt
      simp only [List.cons_append, altFrom, Bool.and_eq_true, beq_iff_eq]
      refine ⟨halt.1, ih (roleFlip r) m halt.2 ?_⟩
      rcases Nat.even_or_odd t.length with he | ho
      · have h2 : t.length % 2 = 0 := Nat.even_iff.mp he
        have h2' : (t.length + 1) % 2 = 1 := by omega
        simp only [List.length_cons, h2', h2] at hrole ⊢
        simpa using hrole
      · have h2 : t.length % 2 = 1 := Nat.odd_iff.mp ho
        have h2' : (t.length + 1) % 2 = 0 := by omega
        simp only [List.length_cons, h2', h2] at hrole ⊢
        simpa using hrole

/-- Alternation invariant of the loop: a transcript that alternates starting
with `sales` and has the parity the loop expects on entry (odd length at
exchange 0, even length afterwards) still alternates when the loop exits. -/
lemma convLoop_alternating (config : SimulationConfig)
    (gw asse : Nat → LLMResult) :
    ∀ (rem exchange : Nat) (st st' : ConvState)
      (o : Option ConversationOutcome),
      convLoop config gw asse rem exchange st = (st', o) →
      altFrom Role.sales st.messages = true →
      st.messages.length % 2 = (if exchange == 0 then 1 else 0) →
      altFrom Role.sales st'.messages = true
  | 0, exchange, st, st', o => by
      intro h halt _
      simp only [convLoop, Prod.mk.injEq] at h
      obtain ⟨rfl, rfl⟩ := h
      exact halt
  | rem + 1, exchange, st, st', o => by
      intro h halt hpar
      have hturn : altFrom Role.sales (turnPhase gw exchange st).messages
          = true ∧ (turnPhase gw exchange st).messages.length % 2 = 0 := by
        unfold turnPhase
        split
        · rename_i hex
          simp only [hex, if_true] at hpar
          constructor
          · simp only [prospectStep_messages]
            refine altFrom_append Role.sales st.messages _ halt ?_
            simp only [hpar]
            rfl
          · simp
            omega
        · rename_i hex
          simp only [if_neg hex] at hpar
          have hsales : altFrom Role.sales (salesStep gw st).messages
              = true := by
            simp only [salesStep_messages]
            refine altFrom_append Role.sales st.messages _ halt ?_
            simp only [hpar]
            rfl
          constructor
          · simp only [prospectStep_messages]
            refine altFrom_append Role.sales _ _ hsales ?_
            have hlen : (salesStep gw st).messages.length % 2 = 1 := by
              simp only [salesStep_messages, List.length_append,
                List.length_singleton]
              omega
            simp only [hlen]
            rfl
          · simp
            omega
      simp only [convLoop] at h
      split at h
      · obtain ⟨rfl, -⟩ := Prod.mk.injEq .. |>.mp h
        exact hturn.1
      · split at h
        · split at h
          · obtain ⟨rfl, -⟩ := Prod.mk.injEq .. |>.mp h
            exact hturn.1
          · obtain ⟨rfl, -⟩ := Prod.mk.injEq .. |>.mp h
            exact hturn.1
        · refine convLoop_alternating config gw asse rem (exchange + 1)
            (bumpAssess (turnPhase gw exchange st)) st' o h hturn.1 ?_
          simp [hturn.2]

/-- Transcript of the log is the loop's final transcript. -/
lemma rsc_messages (config : SimulationConfig) (cid : String)
    (profile : ProspectProfile) (gw asse : Nat → LLMResult) :
    (run_single_conversation_full config cid profile gw asse).1.messages =
      (convLoop config gw asse config.max_message_exchanges 0
        (initState profile)).1.messages := rfl

/-- Outcome of the log is the loop's outcome, defaulted to the limit. -/
lemma rsc_outcome (config : SimulationConfig) (cid : String)
    (profile : ProspectProfile) (gw asse : Nat → LLMResult) :
    (run_single_conversation_full config cid profile gw asse).1.outcome =
      (convLoop config gw asse config.max_message_exchanges 0
        (initState profile)).2.getD ConversationOutcome.reached_message_limit :=
  rfl

/-- The final assessor-invocation count is the loop's. -/
lemma rsc_assessCalls (config : SimulationConfig) (cid : String)
    (profile : ProspectProfile) (gw asse : Nat → LLMResult) :
    (run_single_conversation_full config cid profile gw asse).2.assessCalls =
      (convLoop config gw asse config.max_message_exchanges 0
        (initState profile)).1.assessCalls := rfl

/-- The log's detection field is the extraction of the closing call's
reply. -/
lemma rsc_intent_detection (config : SimulationConfig) (cid : String)
    (profile : ProspectProfile) (gw asse : Nat → LLMResult) :
    (run_single_conversation_full config cid profile gw asse).1.intent_detection
      = extract_intent_detection
        (call_llm (gw (convLoop config gw asse config.max_message_exchanges 0
          (initState profile)).1.gwCalls)).1 := rfl

/-- The log's match flag is derived from the detection field. -/
lemma rsc_intent_match (config : SimulationConfig) (cid : String)
    (profile : ProspectProfile) (gw asse : Nat → LLMResult) :
    (run_single_conversation_full config cid profile gw asse).1.intent_match
      = match (run_single_conversation_full config cid profile gw
            asse).1.intent_detection with
        | some d => d.detected_intent == profile.true_intent
        | none => false := rfl

@[simp]
lemma initState_messages (profile : ProspectProfile) :
    (initState profile).messages = [openingMessage] := rfl

@[simp]
lemma initState_assessCalls (profile : ProspectProfile) :
    (initState profile).assessCalls = 0 := rfl

/-- Run-level form of `convLoop_no_signal`: if no assessor response ever
signals termination, the conversation ends with `reached_message_limit`
after exactly `max_message_exchanges` prospect turns. -/
lemma rsc_no_signal (config : SimulationConfig) (cid : String)
    (profile : ProspectProfile) (gw asse : Nat → LLMResult)
    (hns : ∀ k, ((assess_conversation_status (asse k)).1 &&
      (assess_conversation_status (asse k)).2.isSome) = false) :
    (run_single_conversation config cid profile gw asse).outcome =
        ConversationOutcome.reached_message_limit ∧
      prospectCount
        (run_single_conversation config cid profile gw asse).messages =
        config.max_message_exchanges := by
  unfold run_single_conversation
  rcases hE : convLoop config gw asse config.max_message_exchanges 0
    (initState profile) with ⟨st1, oOpt⟩
  rcases Nat.eq_zero_or_pos config.max_message_exchanges with hmax | hmax
  · rw [hmax] at hE
    simp only [convLoop, Prod.mk.injEq] at hE
    obtain ⟨rfl, rfl⟩ := hE
    constructor
    · rw [rsc_outcome, hmax]
      simp [convLoop]
    · rw [rsc_messages, hmax]
      simp [convLoop, prospectCount, openingMessage]
  · have hs := convLoop_no_signal config gw asse hns
      config.max_message_exchanges 0 (initState profile) st1 oOpt hE
      (by omega) (by omega)
    constructor
    · rw [rsc_outcome, hE, hs.1]
      rfl
    · rw [rsc_messages, hE]
      have := hs.2
      simp only [initState_messages] at this
      simp only [this]
      simp [prospectCount, openingMessage]

/-- Run-level form of `convLoop_assess_pc`. -/
lemma rsc_assess_pc (config : SimulationConfig) (cid : String)
    (profile : ProspectProfile) (gw asse : Nat → LLMResult) :
    (run_single_conversation_full config cid profile gw asse).2.assessCalls =
        prospectCount
          (run_single_conversation_full config cid profile gw
            asse).1.messages ∨
      (run_single_conversation_full config cid profile gw asse).2.assessCalls =
        prospectCount
          (run_single_conversation_full config cid profile gw
            asse).1.messages + 1 := by
  rw [rsc_assessCalls, rsc_messages]
  rcases hE : convLoop config gw asse config.max_message_exchanges 0
    (initState profile) with ⟨st1, oOpt⟩
  have := convLoop_assess_pc config gw asse config.max_message_exchanges 0
    (initState profile) st1 oOpt hE
  simp only [initState_messages, initState_assessCalls] at this
  simp only [prospectCount, openingMessage] at this ⊢
  simp at this
  omega

/-- Run-level form of `convLoop_outcome_src`. -/
lemma rsc_outcome_src (config : SimulationConfig) (cid : String)
    (profile : ProspectProfile) (gw asse : Nat → LLMResult)
    (o : ConversationOutcome)
    (h : (run_single_conversation config cid profile gw asse).outcome = o) :
    o = ConversationOutcome.reached_message_limit ∨
      ∃ k, (assess_conversation_status (asse k)).1 = true ∧
        (assess_conversation_status (asse k)).2 = some o := by
  unfold run_single_conversation at h
  rw [rsc_outcome] at h
  rcases hE : convLoop config gw asse config.max_message_exchanges 0
    (initState profile) with ⟨st1, oOpt⟩
  rw [hE] at h
  cases oOpt with
  | none =>
      left
      simp at h
      exact h.symm
  | some o' =>
      simp at h
      subst h
      exact convLoop_outcome_src config gw asse config.max_message_exchanges 0
        (initState profile) st1 o' hE

/-- A pattern with an explicit occurrence is found by `substrPos`. -/
lemma substrPos_isSome_of_prefix (n l : List Char)
    (h : n.isPrefixOf l = true) : (substrPos n l).isSome = true := by
  cases l <;> simp [substrPos, h]

/-- `substrPos` finds a pattern laid out explicitly in the middle. -/
lemma substrPos_mid (a n b : List Char) :
    (substrPos n (a ++ (n ++ b))).isSome = true := by
  induction a with
  | nil =>
      refine substrPos_isSome_of_prefix n (n ++ b) ?_
      rw [List.isPrefixOf_iff_prefix]
      exact List.prefix_append n b
  | cons c t ih =>
      simp only [List.cons_append, substrPos]
      split
      · rfl
      · simpa using ih

/-- `firstIdx` skips a prefix with no matching character. -/
lemma firstIdx_append_none (p : Char → Bool) (xs ys : List Char)
    (h : ∀ x ∈ xs, p x = false) :
    firstIdx p (xs ++ ys) = (firstIdx p ys).map (· + xs.length) := by
  induction xs with
  | nil =>
      rcases hy : firstIdx p ys with - | i <;> simp [hy]
  | cons c t ih =>
      have hc : p c = false := h c (by simp)
      have ht : ∀ x ∈ t, p x = false := fun x hx => h x (by simp [hx])
      rcases hy : firstIdx p ys with - | i
      · simp [firstIdx, hc, ih ht, hy]
      · simp only [List.cons_append, firstIdx, hc, Bool.false_eq_true,
          if_false, List.append_eq, ih ht, hy]
        simp only [Option.map_some', Option.some.injEq, List.length_cons]
        omega

/-- `lastIdx` over an append comes from the right part when possible. -/
lemma lastIdx_append (p : Char → Bool) (xs ys : List Char) :
    lastIdx p (xs ++ ys) =
      match lastIdx p ys with
      | some i => some (xs.length + i)
      | none => lastIdx p xs := by
  induction xs with
  | nil =>
      rcases hy : lastIdx p ys with - | i <;> simp [hy, lastIdx]
  | cons c t ih =>
      rw [List.cons_append]
      have hstep : lastIdx p (c :: (t ++ ys)) =
          match lastIdx p (t ++ ys) with
          | some i => some (i + 1)
          | none => if p c = true then some 0 else none := by
        simp only [lastIdx, List.append_eq]
      rw [hstep, ih]
      rcases hy : lastIdx p ys with - | i
      · simp only [hy]
        rfl
      · simp only [hy, Option.some.injEq, List.length_cons]
        omega

/-- A list with no matching character has no last index. -/
lemma lastIdx_none (p : Char → Bool) (xs : List Char)
    (h : ∀ x ∈ xs, p x = false) : lastIdx p xs = none := by
  induction xs with
  | nil => rfl
  | cons c t ih =>
      have hc : p c = false := h c (by simp)
      have ht : ∀ x ∈ t, p x = false := fun x hx => h x (by simp [hx])
      simp [lastIdx, ih ht, hc]

/-- `braceFree` strings contain no opening brace. -/
lemma braceFree_no_lb (s : String) (h : braceFree s = true) :
    ∀ c ∈ s.toList, (c == lbrace) = false := by
  intro c hc
  have := (List.all_eq_true.mp h) c hc
  simp only [Bool.and_eq_true, Bool.not_eq_true'] at this
  exact this.1

/-- `braceFree` strings contain no closing brace. -/
lemma braceFree_no_rb (s : String) (h : braceFree s = true) :
    ∀ c ∈ s.toList, (c == rbrace) = false := by
  intro c hc
  have := (List.all_eq_true.mp h) c hc
  simp only [Bool.and_eq_true, Bool.not_eq_true'] at this
  exact this.2

/-- The label contains no opening brace. -/
lemma label_no_lb : ∀ c ∈ "INTENT_DETECTION:".toList, (c == lbrace) = false :=
  by decide

/-- When the only braces of the message are the labeled object's own, the
code's first-brace-to-last-brace slice is exactly that object. -/
lemma extract_concat (pre mid body post : String)
    (hpre : braceFree pre = true) (hmid : braceFree mid = true)
    (hpost : braceFree post = true) :
    extract_intent_detection
        (pre ++ "INTENT_DETECTION:" ++ mid ++ lbraceStr ++ body ++
          rbraceStr ++ post) =
      decodeIntentPayload (lbrace :: (body.toList ++ [rbrace])) := by
  set text := pre ++ "INTENT_DETECTION:" ++ mid ++ lbraceStr ++ body ++
    rbraceStr ++ post with htext
  set A := pre.toList ++ "INTENT_DETECTION:".toList ++ mid.toList with hA
  set B := body.toList with hB
  set P := post.toList with hP
  have htl : text.toList =
      A ++ (lbrace :: (B ++ (rbrace :: P))) := by
    simp only [htext, hA, hB, hP, String.toList, String.data_append,
      lbraceStr, rbraceStr, List.append_assoc, List.cons_append,
      List.nil_append, List.singleton_append]
  have hAnolb : ∀ c ∈ A, (c == lbrace) = false := by
    intro c hc
    rw [hA] at hc
    simp only [List.mem_append] at hc
    rcases hc with (hc | hc) | hc
    · exact braceFree_no_lb pre hpre c hc
    · exact label_no_lb c hc
    · exact braceFree_no_lb mid hmid c hc
  have hsub : isSubstr "INTENT_DETECTION:" text = true := by
    unfold isSubstr
    rw [htl, hA]
    rw [List.append_assoc, List.append_assoc]
    exact substrPos_mid pre.toList "INTENT_DETECTION:".toList _
  have hfirst : firstIdx (· == lbrace) text.toList = some A.length := by
    rw [htl, firstIdx_append_none _ A _ hAnolb]
    have : firstIdx (· == lbrace) (lbrace :: (B ++ (rbrace :: P))) =
        some 0 := by
      simp [firstIdx]
    rw [this]
    simp
  have hlast : lastIdx (· == rbrace) text.toList =
      some (A.length + (B.length + 1)) := by
    rw [htl, lastIdx_append]
    have hrbP : lastIdx (· == rbrace) (rbrace :: P) = some 0 := by
      have : lastIdx (· == rbrace) P = none :=
        lastIdx_none _ P (braceFree_no_rb post hpost)
      simp [lastIdx, this]
    have hinner : lastIdx (· == rbrace) (lbrace :: (B ++ (rbrace :: P))) =
        some (B.length + 1) := by
      have hBr : lastIdx (· == rbrace) (B ++ (rbrace :: P)) =
          some B.length := by
        rw [lastIdx_append, hrbP]
        simp
      simp [lastIdx, hBr]
    rw [hinner]
  have hslice : pySlice text.toList A.length (A.length + (B.length + 1) + 1)
      = lbrace :: (B ++ [rbrace]) := by
    unfold pySlice
    rw [htl]
    have hdrop : (A ++ (lbrace :: (B ++ (rbrace :: P)))).drop A.length =
        lbrace :: (B ++ (rbrace :: P)) := List.drop_left A _
    rw [hdrop]
    have harith : A.length + (B.length + 1) + 1 - A.length =
        (lbrace :: (B ++ [rbrace])).length := by
      simp
      omega
    rw [harith]
    have hregroup : lbrace :: (B ++ (rbrace :: P)) =
        (lbrace :: (B ++ [rbrace])) ++ P := by
      simp
    rw [hregroup]
    exact List.take_left _ _
  unfold extract_intent_detection
  rw [hsub]
  simp only [if_true]
  rw [hfirst, hlast]
  have hcond : A.length < A.length + (B.length + 1) + 1 := by omega
  simp only [if_pos hcond]
  rw [hslice, hB]

/-- `extract_intent_detection` factors through its payload selection: the
decoded text is exactly the first-brace-to-last-brace slice of the whole
message, and nothing else. -/
lemma extract_eq_decode (s : String) :
    extract_intent_detection s = (intentPayload? s).bind decodeIntentPayload
    := by
  unfold extract_intent_detection intentPayload?
  by_cases hs : isSubstr "INTENT_DETECTION:" s
  · simp only [hs, if_true]
    rcases h1 : firstIdx (· == lbrace) s.toList with - | js
    · simp
    · rcases h2 : lastIdx (· == rbrace) s.toList with - | je
      · simp
      · by_cases h3 : js < je + 1
        · simp [h3]
        · simp [h3]
  · simp only [Bool.not_eq_true] at hs
    simp [hs]

/-- Unfolding step for `decodeIntentPayload` on an object payload. -/
lemma decodeIntentPayload_obj (payload : List Char)
    (fields : List (String × Json))
    (hj : json_loads_chars payload = some (Json.obj fields)) :
    decodeIntentPayload payload =
      match jLookup fields "detected_intent" with
      | some (Json.str di) =>
          match Intent.fromValue? (normalizeIntentStr di) with
          | some intent =>
              match (jLookup fields "confidence_level").bind pyFloat? with
              | some c =>
                  match jLookup fields "reasoning" with
                  | some (Json.str r) =>
                      match jGetOptStr fields "best_time_to_visit" with
                      | some b => IntentDetection.make? intent c r b
                      | none => none
                  | _ => none
              | none => none
          | none => none
      | _ => none := by
  unfold decodeIntentPayload
  rw [hj]

/-- The decode pipeline rejects payloads whose `confidence_level` is a
number outside `[0, 1]`: the pydantic bound check fails and the whole
extraction is absorbed to `none`. -/
lemma decode_confidence_oob (payload : List Char)
    (fields : List (String × Json)) (c : Rat)
    (hj : json_loads_chars payload = some (Json.obj fields))
    (hc : jLookup fields "confidence_level" = some (Json.num c))
    (hoob : c < 0 ∨ 1 < c) :
    decodeIntentPayload payload = none := by
  rw [decodeIntentPayload_obj payload fields hj]
  rcases h1 : jLookup fields "detected_intent" with - | v
  · rfl
  · cases v with
    | str di =>
        rcases h2 : Intent.fromValue? (normalizeIntentStr di) with - | intent
        · simp only [h2]
        · simp only [h2, hc, Option.some_bind, pyFloat?]
          rcases h3 : jLookup fields "reasoning" with - | w
          · simp only [h3]
          · cases w with
            | str r =>
                rcases h4 : jGetOptStr fields "best_time_to_visit"
                  with - | b
                · simp only [h3, h4]
                · simp only [h3, h4]
                  unfold IntentDetection.make?
                  rw [if_neg]
                  rintro ⟨g0, g1⟩
                  rcases hoob with h | h <;> linarith
            | null => simp only [h3]
            | bool x => simp only [h3]
            | num q => simp only [h3]
            | arr e => simp only [h3]
            | obj f => simp only [h3]
    | null => rfl
    | bool x => rfl
    | num q => rfl
    | arr e => rfl
    | obj f => rfl

/-- The batch runner's fold collects exactly the successful iterations,
in order. -/
lemma batch_foldl_collect (runResult : Nat → Except String ConversationLog) :
    ∀ (l : List Nat) (acc : List ConversationLog),
      l.foldl (fun logs i =>
        match runResult i with
        | .ok log => logs ++ [log]
        | .error _ => logs) acc
      = acc ++ l.filterMap (fun i => (runResult i).toOption) := by
  intro l
  induction l with
  | nil => intro acc; simp
  | cons x t ih =>
      intro acc
      cases hx : runResult x with
      | error e => simp [List.foldl_cons, List.filterMap_cons, hx, ih,
          Except.toOption]
      | ok log => simp [List.foldl_cons, List.filterMap_cons, hx, ih,
          Except.toOption]

/-! ## Claim theorems -/

/-- C5: whenever extraction fails — missing label, malformed JSON such as a
missing closing brace, or an unknown intent token — `extract_intent_detection`
returns `none` rather than any partially-populated record, and a log whose
detection is `none` has `intent_match = false`. -/
theorem claim_C5 :
    (∀ s, isSubstr "INTENT_DETECTION:" s = false →
        extract_intent_detection s = none) ∧
      extract_intent_detection textMalformed = none ∧
      extract_intent_detection textUnknownIntent = none ∧
      (∀ (config : SimulationConfig) (cid : String)
          (profile : ProspectProfile) (gw asse : Nat → LLMResult),
        (run_single_conversation config cid profile gw asse).intent_detection
            = none →
        (run_single_conversation config cid profile gw asse).intent_match
            = false) := by
  refine ⟨?_, by rfl, by rfl, ?_⟩
  · intro s hs
    unfold extract_intent_detection
    simp [hs]
  · intro config cid profile gw asse h
    unfold run_single_conversation at h ⊢
    rw [rsc_intent_match, h]

/-- C5 witness: a concrete text without the label extracts to `none`. -/
theorem claim_C5_witness :
    isSubstr "INTENT_DETECTION:" "hello there" = false ∧
      extract_intent_detection "hello there" = none :=
  ⟨by rfl, claim_C5.1 "hello there" (by rfl)⟩

/-- C6: a failed assessor LLM call, or an unparseable assessor reply, makes
`assess_conversation_status` return `(False, None)`; and if every assessor
invocation of a run returns `(False, None)`, the conversation is never
terminated early: it runs all `max_message_exchanges` exchanges and closes
with `reached_message_limit`. -/
theorem claim_C6 :
    (∀ m, assess_conversation_status (LLMResult.error m) = (false, none)) ∧
      (∀ content tokens, json_loads (assessStrip content) = none →
        assess_conversation_status (LLMResult.ok content tokens)
          = (false, none)) ∧
      (∀ (config : SimulationConfig) (cid : String)
          (profile : ProspectProfile) (gw asse : Nat → LLMResult),
        (∀ k, assess_conversation_status (asse k) = (false, none)) →
        (run_single_conversation config cid profile gw asse).outcome =
            ConversationOutcome.reached_message_limit ∧
          prospectCount
              (run_single_conversation config cid profile gw asse).messages =
            config.max_message_exchanges) := by
  refine ⟨fun m => rfl, ?_, ?_⟩
  · intro content tokens h
    simp only [assess_conversation_status, h]
  · intro config cid profile gw asse h
    refine rsc_no_signal config cid profile gw asse (fun k => ?_)
    rw [h k]
    rfl

/-- C6 witness: with an always-raising assessor, the concrete run goes to
the exchange ceiling. -/
theorem claim_C6_witness :
    assess_conversation_status (LLMResult.error "boom") = (false, none) ∧
      json_loads (assessStrip "garbage") = none ∧
      assess_conversation_status (LLMResult.ok "garbage" 3) = (false, none) ∧
      (run_single_conversation cfgMax1 "conv" profileA gwConst
          asseFail).outcome = ConversationOutcome.reached_message_limit :=
  ⟨claim_C6.1 "boom", by rfl,
    claim_C6.2.1 "garbage" 3 (by rfl),
    (claim_C6.2.2 cfgMax1 "conv" profileA gwConst asseFail
      (fun k => by rfl)).1⟩

/-- C8: every transcript strictly alternates roles starting with `sales`,
and the first message is always the fixed canonical opening text with a
token cost of zero. -/
theorem claim_C8 (config : SimulationConfig) (cid : String)
    (profile : ProspectProfile) (gw asse : Nat → LLMResult) :
    altFrom Role.sales
        (run_single_conversation config cid profile gw asse).messages
        = true ∧
      (run_single_conversation config cid profile gw asse).messages.head?
        = some openingMessage ∧
      openingMessage.role = Role.sales ∧
      openingMessage.content = sales_opening ∧
      openingMessage.tokens_used = 0 := by
  unfold run_single_conversation
  rcases hE : convLoop config gw asse config.max_message_exchanges 0
    (initState profile) with ⟨st1, oOpt⟩
  refine ⟨?_, ?_, rfl, rfl, rfl⟩
  · rw [rsc_messages, hE]
    exact convLoop_alternating config gw asse config.max_message_exchanges 0
      (initState profile) st1 oOpt hE (by rfl) (by rfl)
  · rw [rsc_messages, hE]
    obtain ⟨tail, htail⟩ := convLoop_messages_ext config gw asse
      config.max_message_exchanges 0 (initState profile) st1 oOpt hE
    simp only [initState_messages, List.singleton_append] at htail
    rw [htail]
    rfl

/-- C9: the batch runner catches a failing conversation, drops it, runs the
rest: the result is exactly the successful iterations in order, its length
never exceeds `num_simulations`, and the completed-versus-requested tally is
reported; the runner is a total function, so no error propagates. -/
theorem claim_C9 (config : SimulationConfig)
    (runResult : Nat → Except String ConversationLog) :
    run_simulation_batch config runResult =
        (List.range config.num_simulations).filterMap
          (fun i => (runResult i).toOption) ∧
      (run_simulation_batch config runResult).length ≤
        config.num_simulations ∧
      batchReport config (run_simulation_batch config runResult) =
        ((run_simulation_batch config runResult).length,
          config.num_simulations) := by
  have h := batch_foldl_collect runResult (List.range config.num_simulations)
    []
  have h1 : run_simulation_batch config runResult =
      (List.range config.num_simulations).filterMap
        (fun i => (runResult i).toOption) := by
    unfold run_simulation_batch
    simpa using h
  refine ⟨h1, ?_, rfl⟩
  rw [h1]
  calc ((List.range config.num_simulations).filterMap
          (fun i => (runResult i).toOption)).length
      ≤ (List.range config.num_simulations).length :=
        List.length_filterMap_le _ _
    _ = config.num_simulations := List.length_range _

/-- C1 counterexample: an assessment whose categorical outcome is
`agreed_to_free_class` but whose `should_end` is false does not close the
conversation with that outcome — the run ends with `reached_message_limit`
instead, so the outcome category does not win over the boolean. -/
theorem claim_C1_counterexample :
    assess_conversation_status (asseDisagree 0) =
        (false, some ConversationOutcome.agreed_to_free_class) ∧
      (run_single_conversation cfgMax1 "conv" profileA gwConst
          asseDisagree).outcome
        = ConversationOutcome.reached_message_limit := by
  exact ⟨by rfl, by rfl⟩

/-- C1 amended: neither signal wins on disagreement — the conversation
closes with an assessor-categorical outcome only when the very same
invocation also returned a truthy `should_end` (otherwise the run falls
through to `reached_message_limit`). -/
theorem claim_C1_amended (config : SimulationConfig) (cid : String)
    (profile : ProspectProfile) (gw asse : Nat → LLMResult)
    (o : ConversationOutcome)
    (h : (run_single_conversation config cid profile gw asse).outcome = o) :
    o = ConversationOutcome.reached_message_limit ∨
      ∃ k, (assess_conversation_status (asse k)).1 = true ∧
        (assess_conversation_status (asse k)).2 = some o :=
  rsc_outcome_src config cid profile gw asse o h

/-- C1 witness: a run closed as `not_interested`, whose assessor invocation
returned that outcome with a true `should_end`. -/
theorem claim_C1_witness :
    (run_single_conversation cfgMax1 "conv" profileA gwConst
        asseAgreeEnd).outcome = ConversationOutcome.not_interested ∧
      (ConversationOutcome.not_interested =
          ConversationOutcome.reached_message_limit ∨
        ∃ k, (assess_conversation_status (asseAgreeEnd k)).1 = true ∧
          (assess_conversation_status (asseAgreeEnd k)).2 =
            some ConversationOutcome.not_interested) :=
  ⟨by rfl,
    claim_C1_amended cfgMax1 "conv" profileA gwConst asseAgreeEnd
      ConversationOutcome.not_interested (by rfl)⟩

/-- C2 counterexample: with a single allowed exchange and an assessor that
votes to continue, the lone completed prospect turn triggers two assessor
invocations, not exactly one. -/
theorem claim_C2_counterexample :
    prospectCount (run_single_conversation_full cfgMax1 "conv" profileA
        gwConst asseContinue).1.messages = 1 ∧
      (run_single_conversation_full cfgMax1 "conv" profileA gwConst
        asseContinue).2.assessCalls = 2 := by
  exact ⟨by rfl, by rfl⟩

/-- C2 amended: every completed prospect turn is assessed — total assessor
invocations equal the number of completed prospect turns, or exceed it by
exactly one (the final exchange is assessed a second time when its first
assessment does not signal termination); the log still records exactly one
outcome. -/
theorem claim_C2_amended (config : SimulationConfig) (cid : String)
    (profile : ProspectProfile) (gw asse : Nat → LLMResult) :
    (run_single_conversation_full config cid profile gw asse).2.assessCalls
        = prospectCount
            (run_single_conversation_full config cid profile gw
              asse).1.messages ∨
      (run_single_conversation_full config cid profile gw asse).2.assessCalls
        = prospectCount
            (run_single_conversation_full config cid profile gw
              asse).1.messages + 1 :=
  rsc_assess_pc config cid profile gw asse

/-- C3: a conversation never completes more than `max_message_exchanges`
exchanges, and when no assessor invocation signals termination the run
closes with exactly `reached_message_limit`. -/
theorem claim_C3 (config : SimulationConfig) (cid : String)
    (profile : ProspectProfile) (gw asse : Nat → LLMResult) :
    prospectCount
        (run_single_conversation config cid profile gw asse).messages
        ≤ config.max_message_exchanges ∧
      ((∀ k, ((assess_conversation_status (asse k)).1 &&
          (assess_conversation_status (asse k)).2.isSome) = false) →
        (run_single_conversation config cid profile gw asse).outcome =
          ConversationOutcome.reached_message_limit) := by
  constructor
  · unfold run_single_conversation
    rw [rsc_messages]
    rcases hE : convLoop config gw asse config.max_message_exchanges 0
      (initState profile) with ⟨st1, oOpt⟩
    have hle := convLoop_pc_le config gw asse config.max_message_exchanges 0
      (initState profile) st1 oOpt hE
    simp only [initState_messages] at hle
    have h0 : prospectCount [openingMessage] = 0 := rfl
    have hfst : (st1, oOpt).1 = st1 := rfl
    rw [hfst]
    omega
  · intro hns
    exact (rsc_no_signal config cid profile gw asse hns).1

/-- C3 witness: a concrete run whose assessor never signals stays within
the single allowed exchange and closes at the limit. -/
theorem claim_C3_witness :
    prospectCount (run_single_conversation cfgMax1 "conv" profileA gwConst
        asseContinue).messages ≤ cfgMax1.max_message_exchanges ∧
      (run_single_conversation cfgMax1 "conv" profileA gwConst
        asseContinue).outcome = ConversationOutcome.reached_message_limit :=
  ⟨(claim_C3 cfgMax1 "conv" profileA gwConst asseContinue).1,
    (claim_C3 cfgMax1 "conv" profileA gwConst asseContinue).2
      (fun k => by rfl)⟩

/-- C4 counterexample: on a message whose first brace precedes the label,
the code returns `none` even though the first balanced brace-delimited
object following the label decodes to a full record — the code does not
isolate the labeled object. -/
theorem claim_C4_counterexample :
    extract_intent_detection textBraceBeforeLabel = none ∧
      extractSpec textBraceBeforeLabel =
        some ⟨Intent.weight_loss, mkRat 9 10, "r", none⟩ := by
  exact ⟨by rfl, by decide⟩

/-- C4 amended: the payload `extract_intent_detection` decodes is the slice
of the whole message from its first brace to its last brace; this is the
labeled object exactly when the text around the object contains no other
braces, as here: for brace-free `pre`, `mid` and `post` the extraction
equals the decode of the object itself. -/
theorem claim_C4_amended (pre mid body post : String)
    (hpre : braceFree pre = true) (hmid : braceFree mid = true)
    (hpost : braceFree post = true) :
    extract_intent_detection
        (pre ++ "INTENT_DETECTION:" ++ mid ++ lbraceStr ++ body ++
          rbraceStr ++ post) =
      decodeIntentPayload (lbrace :: (body.toList ++ [rbrace])) :=
  extract_concat pre mid body post hpre hmid hpost

/-- C4 witness: the amended statement applied at a concrete message. -/
theorem claim_C4_witness :
    extract_intent_detection
        ("x" ++ "INTENT_DETECTION:" ++ " " ++ lbraceStr ++
          "\"detected_intent\": \"weight_loss\", \"confidence_level\": 0.9, \"reasoning\": \"r\"" ++
          rbraceStr ++ "!") =
      decodeIntentPayload (lbrace ::
        (("\"detected_intent\": \"weight_loss\", \"confidence_level\": 0.9, \"reasoning\": \"r\"").toList
          ++ [rbrace])) :=
  claim_C4_amended "x" " "
    "\"detected_intent\": \"weight_loss\", \"confidence_level\": 0.9, \"reasoning\": \"r\""
    "!" (by rfl) (by rfl) (by rfl)

/-- C7: a raised Gateway error is caught at the call site and becomes an
inline `[Error: ...]` message with zero tokens; every non-opening transcript
message is the `call_llm` image of some Gateway response, and the
conversation still reaches its assessments (at least one per prospect
turn), producing a closed log. -/
theorem claim_C7 :
    (∀ m, call_llm (LLMResult.error m) = ("[Error: " ++ m ++ "]", 0)) ∧
      (∀ (config : SimulationConfig) (cid : String)
          (profile : ProspectProfile) (gw asse : Nat → LLMResult),
        ∀ m ∈ (run_single_conversation config cid profile gw asse).messages,
          m = openingMessage ∨
            ∃ i, m.content = (call_llm (gw i)).1 ∧
              m.tokens_used = (call_llm (gw i)).2) ∧
      (∀ (config : SimulationConfig) (cid : String)
          (profile : ProspectProfile) (gw asse : Nat → LLMResult),
        prospectCount
            (run_single_conversation config cid profile gw asse).messages ≤
          (run_single_conversation_full config cid profile gw
            asse).2.assessCalls) := by
  refine ⟨fun m => rfl, ?_, ?_⟩
  · intro config cid profile gw asse m hm
    unfold run_single_conversation at hm
    rw [rsc_messages] at hm
    rcases hE : convLoop config gw asse config.max_message_exchanges 0
      (initState profile) with ⟨st1, oOpt⟩
    rw [hE] at hm
    refine convLoop_msgs_from_gw config gw asse config.max_message_exchanges
      0 (initState profile) st1 oOpt hE ?_ m hm
    intro m' hm'
    simp only [initState_messages, List.mem_singleton] at hm'
    subst hm'
    exact Or.inl rfl
  · intro config cid profile gw asse
    have h := rsc_assess_pc config cid profile gw asse
    unfold run_single_conversation
    rcases h with h | h <;> omega

/-- C7 witness: with an always-raising Gateway, the transcript holds the
inline error-marker prospect message with zero tokens, and it is the image
of a Gateway response under `call_llm`. -/
theorem claim_C7_witness :
    call_llm (LLMResult.error "boom") = ("[Error: boom]", 0) ∧
      (⟨Role.prospect, "[Error: boom]", 0⟩ : ConversationMessage) ∈
        (run_single_conversation cfgMax1 "conv" profileA gwErr
          asseContinue).messages ∧
      ((⟨Role.prospect, "[Error: boom]", 0⟩ : ConversationMessage) =
          openingMessage ∨
        ∃ i, (ConversationMessage.mk Role.prospect "[Error: boom]" 0).content
              = (call_llm (gwErr i)).1 ∧
            (ConversationMessage.mk Role.prospect "[Error: boom]" 0).tokens_used
              = (call_llm (gwErr i)).2) :=
  ⟨claim_C7.1 "boom", by decide,
    claim_C7.2.1 cfgMax1 "conv" profileA gwErr asseContinue
      ⟨Role.prospect, "[Error: boom]", 0⟩ (by decide)⟩

/-- C10: when the message carries the label and its sliced payload decodes
to a JSON object whose `confidence_level` is a number outside `[0, 1]`,
extraction returns `none` — the bounds validation rejects the record and
the failure is absorbed. -/
theorem claim_C10 (s : String) (payload : List Char)
    (fields : List (String × Json)) (c : Rat)
    (h1 : intentPayload? s = some payload)
    (h2 : json_loads_chars payload = some (Json.obj fields))
    (h3 : jLookup fields "confidence_level" = some (Json.num c))
    (h4 : c < 0 ∨ 1 < c) :
    extract_intent_detection s = none := by
  rw [extract_eq_decode, h1, Option.some_bind]
  exact decode_confidence_oob payload fields c h2 h3 h4

/-- C10 witness: the concrete out-of-range payload extracts to `none`. -/
theorem claim_C10_witness :
    extract_intent_detection textConfidenceOOB = none :=
  claim_C10 textConfidenceOOB payloadOOB fieldsOOB (mkRat 15 10) (by rfl)
    (by rfl) (by rfl) (Or.inr (by decide))

end Sim
